import Mathlib

/-!
Verification of a qiskit-aqua fragment against its specification.

Part 1 embeds `UnivariateVariationalDistribution`
(src/qiskit/aqua/components/uncertainty_models/univariate_variational_distribution.py):
circuits are lists of abstract operations, amplitudes are pairs of rationals
(re, im), the external collaborators (variational form, initial distribution,
quantum instance) are function-valued records returning `Except` to model
Python exceptions, and bit-string keys of a counts dictionary are encoded by
their basis-state index (for the fixed key length `num_qubits`, ascending
numeric order of indices coincides with ascending lexicographic order of the
bit-strings).

Part 2 embeds `SVMInput` (src/qiskit_aqua/input/svminput.py): Python values
are a small universe `PyVal` with Python truthiness, where converting a
multi-element numpy array to bool raises `ValueError`, as numpy does.
-/

namespace QiskitAqua

/-! ## Part 1: UnivariateVariationalDistribution -/

/-- Python exception payload (the error message). -/
abbrev Err := String

/-- An operation appended to a quantum circuit.  `varGate` records the
parameters the variational form was constructed with, `measure` is the
measurement of qubit `q` into classical bit `c` appended by
`set_probabilities` in sampling mode. -/
inductive Op where
  | initGate (reg : ℕ)
  | varGate (params : List ℚ) (reg : ℕ)
  | measure (q : ℕ) (c : ℕ)
deriving DecidableEq, Repr

/-- A circuit is the list of its operations; `extend` / `+=` is append. -/
abbrev Circuit := List Op

/-- The variational-form collaborator: `construct_circuit(params, register)`. -/
structure VarForm where
  construct_circuit : List ℚ → ℕ → Except Err Circuit

/-- The initial-distribution collaborator:
`construct_circuit(mode='circuit', register=q)`. -/
structure InitialDistribution where
  construct_circuit : ℕ → Except Err Circuit

/-- State of a `UnivariateVariationalDistribution` object. -/
structure UnivariateVariationalDistribution where
  num_qubits : ℕ
  var_form : VarForm
  params : List ℚ
  initial_distribution : Option InitialDistribution
  probabilities : List ℚ

/-- `__init__` (lines 71-77): `probabilities = list(np.zeros(2**num_qubits))`. -/
def UnivariateVariationalDistribution.init (num_qubits : ℕ) (var_form : VarForm)
    (params : List ℚ) (initial_distribution : Option InitialDistribution) :
    UnivariateVariationalDistribution :=
  { num_qubits := num_qubits
    var_form := var_form
    params := params
    initial_distribution := initial_distribution
    probabilities := List.replicate (2 ^ num_qubits) 0 }

/-- `build` (lines 79-83).  The Python method mutates `qc` by `extend`; here the
extended circuit is returned.  Note the source passes `self.params` to the
variational form on line 82, leaving the `params` argument unused. -/
def UnivariateVariationalDistribution.build
    (st : UnivariateVariationalDistribution) (qc : Circuit) (q : ℕ)
    (q_ancillas : Option ℕ) (params : Option (List ℚ)) : Except Err Circuit := do
  let qc1 ←
    match st.initial_distribution with
    | Option.some idist => do
        let frag ← idist.construct_circuit q
        pure (qc ++ frag)
    | Option.none => pure qc
  let circuit_var_form ← st.var_form.construct_circuit st.params q
  pure (qc1 ++ circuit_var_form)

/-- `qc_.measure(q_, c_)` on an `num_qubits`-wide register pair. -/
def measureAll (n : ℕ) : Circuit := (List.range n).map (fun i => Op.measure i i)

/-- Complex conjugate on (re, im) pairs of rationals. -/
def cconj (z : ℚ × ℚ) : ℚ × ℚ := (z.1, -z.2)

/-- Complex multiplication on (re, im) pairs of rationals. -/
def cmul (a b : ℚ × ℚ) : ℚ × ℚ := (a.1 * b.1 - a.2 * b.2, a.1 * b.2 + a.2 * b.1)

/-- Exact-mode value extraction (lines 112-114):
`values = np.multiply(result, np.conj(result)); values = list(values.real)`. -/
def exactValues (sv : List (ℚ × ℚ)) : List ℚ :=
  (sv.map (fun z => cmul z (cconj z))).map Prod.fst

/-- The order `sorted` uses on the `(key, value)` pairs of `zip(keys, values)`:
lexicographic on the pair, keys first. -/
def keyLe (a b : ℕ × ℚ) : Prop := a.1 < b.1 ∨ (a.1 = b.1 ∧ a.2 ≤ b.2)

instance : DecidableRel keyLe := fun a b => by
  unfold keyLe; infer_instance

instance : IsTotal (ℕ × ℚ) keyLe where
  total a b := by
    rcases Nat.lt_trichotomy a.1 b.1 with h | h | h
    · exact Or.inl (Or.inl h)
    · rcases le_total a.2 b.2 with h2 | h2
      · exact Or.inl (Or.inr ⟨h, h2⟩)
      · exact Or.inr (Or.inr ⟨h.symm, h2⟩)
    · exact Or.inr (Or.inl h)

instance : IsTrans (ℕ × ℚ) keyLe where
  trans a b c hab hbc := by
    rcases hab with h1 | ⟨e1, l1⟩
    · rcases hbc with h2 | ⟨e2, _⟩
      · exact Or.inl (h1.trans h2)
      · exact Or.inl (e2 ▸ h1)
    · rcases hbc with h2 | ⟨e2, l2⟩
      · exact Or.inl (e1 ▸ h2)
      · exact Or.inr ⟨e1.trans e2, l1.trans l2⟩

instance : IsAntisymm (ℕ × ℚ) keyLe where
  antisymm a b hab hba := by
    rcases hab with h1 | ⟨e1, l1⟩
    · rcases hba with h2 | ⟨e2, _⟩
      · exact absurd (h1.trans h2) (lt_irrefl a.1)
      · exact absurd (e2 ▸ h1) (lt_irrefl a.1)
    · rcases hba with h2 | ⟨e2, l2⟩
      · exact absurd (e1 ▸ h2) (lt_irrefl a.1)
      · exact Prod.ext e1 (le_antisymm l1 l2)

/-- Sampling-mode value extraction (lines 116-120):
`keys = list(result); values = list(result.values());`
`values = [float(v) / np.sum(values) for v in values];`
`values = [x for _, x in sorted(zip(keys, values))]`.
The counts dictionary is an association list of (basis index, count) pairs. -/
def samplingValues (counts : List (ℕ × ℕ)) : List ℚ :=
  let keys := counts.map Prod.fst
  let values := counts.map Prod.snd
  let normalized := values.map (fun v : ℕ => (v : ℚ) / (values.sum : ℚ))
  (List.insertionSort keyLe (keys.zip normalized)).map Prod.snd

/-- What `quantum_instance.execute` returns. -/
inductive ExecResult where
  | statevector (sv : List (ℚ × ℚ))
  | counts (cs : List (ℕ × ℕ))

/-- `result.get_statevector(qc_)`: raises unless a statevector is present. -/
def ExecResult.get_statevector : ExecResult → Except Err (List (ℚ × ℚ))
  | ExecResult.statevector sv => Except.ok sv
  | ExecResult.counts _ => Except.error "No statevector for experiment"

/-- `result.get_counts(qc_)`: raises unless counts are present. -/
def ExecResult.get_counts : ExecResult → Except Err (List (ℕ × ℕ))
  | ExecResult.counts cs => Except.ok cs
  | ExecResult.statevector _ => Except.error "No counts for experiment"

/-- The execution-context collaborator. -/
structure QuantumInstance where
  is_statevector : Bool
  execute : Circuit → Except Err ExecResult

/-- `set_probabilities` (lines 86-124), with the fresh register `q_` given
id 0.  The pair returned is (raised exception or unit, the object state when
control returns to the caller): the single write to `self._probabilities`
happens on line 123, after every fallible step, so on an exception the state
comes back unchanged. -/
def UnivariateVariationalDistribution.set_probabilities
    (st : UnivariateVariationalDistribution) (quantum_instance : QuantumInstance) :
    Except Err Unit × UnivariateVariationalDistribution :=
  match (do
      let qc0 ←
        match st.initial_distribution with
        | Option.some idist => idist.construct_circuit 0
        | Option.none => pure ([] : Circuit)
      let circuit_var_form ← st.var_form.construct_circuit st.params 0
      let qc1 := qc0 ++ circuit_var_form
      let qc2 := if quantum_instance.is_statevector then qc1
                 else qc1 ++ measureAll st.num_qubits
      let result ← quantum_instance.execute qc2
      if quantum_instance.is_statevector then do
        let sv ← result.get_statevector
        pure (exactValues sv)
      else do
        let cs ← result.get_counts
        pure (samplingValues cs)
    : Except Err (List ℚ)) with
  | Except.error e => (Except.error e, st)
  | Except.ok values =>
      (Except.ok Unit.unit, { st with probabilities := values })

/-- The circuit fragment `build` and `set_probabilities` start from: the
initial-distribution circuit when the collaborator is present, the empty
circuit (`QuantumCircuit(q_)`) otherwise. -/
def initFragment (st : UnivariateVariationalDistribution) (q : ℕ) :
    Except Err Circuit :=
  match st.initial_distribution with
  | Option.some idist => idist.construct_circuit q
  | Option.none => Except.ok []

/-- The circuit `set_probabilities` hands to `execute`: the state-preparation
circuit, with a measurement of every qubit appended in sampling mode only. -/
def executedCircuit (qi : QuantumInstance)
    (st : UnivariateVariationalDistribution) (qc1 : Circuit) : Circuit :=
  if qi.is_statevector then qc1 else qc1 ++ measureAll st.num_qubits

/-- A variational form whose fragment records the parameters it was handed,
used for concrete instantiations. -/
def vfRecord : VarForm := ⟨fun ps q => Except.ok [Op.varGate ps q]⟩

/-- A variational form producing the empty fragment, used for concrete
instantiations. -/
def vfEmpty : VarForm := ⟨fun _ _ => Except.ok []⟩

/-! ## Part 2: SVMInput -/

/-- A small universe of Python values, enough for the fields `SVMInput`
handles: datasets (dicts), datapoint sequences (lists of feature vectors or
numpy arrays), `None`, and scalars. -/
inductive PyVal where
  | none
  | int (n : ℤ)
  | str (s : String)
  | dict (entries : List (String × ℤ))
  | pyList (elems : List (List ℚ))
  | npArray (elems : List ℚ)
deriving DecidableEq, Repr

/-- The exceptions the `SVMInput` code can raise. -/
inductive PyErr where
  | algorithmError
  | keyError
  | valueError
deriving DecidableEq, Repr

/-- Python `bool(v)`.  numpy raises `ValueError` ("truth value of an array
with more than one element is ambiguous") for arrays of two or more
elements; a one-element array has its element's truthiness and an empty
array is falsy. -/
def truthy : PyVal → Except PyErr Bool
  | PyVal.none => Except.ok false
  | PyVal.int n => Except.ok (decide (n ≠ 0))
  | PyVal.str s => Except.ok (decide (s ≠ ""))
  | PyVal.dict entries => Except.ok (decide (entries ≠ []))
  | PyVal.pyList elems => Except.ok (decide (elems ≠ []))
  | PyVal.npArray [] => Except.ok false
  | PyVal.npArray [x] => Except.ok (decide (x ≠ 0))
  | PyVal.npArray (_ :: _ :: _) => Except.error PyErr.valueError

/-- Python `a or b`: `a` when truthy, else `b`; raises if `bool(a)` raises. -/
def pyOr (a b : PyVal) : Except PyErr PyVal := do
  let t ← truthy a
  if t then pure a else pure b

/-- The three fields of an `SVMInput` instance. -/
structure SVMInput where
  training_dataset : PyVal
  test_dataset : PyVal
  datapoints : PyVal
deriving DecidableEq, Repr

/-- `__init__` (lines 52-56): `self.training_dataset = training_dataset;`
`self.test_dataset = test_dataset or {};`
`self.datapoints = datapoints or np.asarray([])`. -/
def SVMInput.init (training_dataset test_dataset datapoints : PyVal) :
    Except PyErr SVMInput := do
  let td ← pyOr test_dataset (PyVal.dict [])
  let dp ← pyOr datapoints (PyVal.npArray [])
  pure { training_dataset := training_dataset, test_dataset := td, datapoints := dp }

/-- A parameter mapping, as an association list in insertion order. -/
abbrev Params := List (String × PyVal)

/-- `to_params` (lines 58-63). -/
def SVMInput.to_params (s : SVMInput) : Params :=
  [("training_dataset", s.training_dataset),
   ("test_dataset", s.test_dataset),
   ("datapoints", s.datapoints)]

/-- Dictionary membership / lookup on the first matching key. -/
def lookupKey : Params → String → Option PyVal
  | [], _ => Option.none
  | (k, v) :: rest, key => if k = key then Option.some v else lookupKey rest key

/-- `params[key]`: raises `KeyError` when the key is absent. -/
def getItem (params : Params) (key : String) : Except PyErr PyVal :=
  match lookupKey params key with
  | Option.some v => Except.ok v
  | Option.none => Except.error PyErr.keyError

/-- `from_params` (lines 65-72): raises `AlgorithmError` when
`'training_dataset' not in params`, then indexes the remaining keys
directly and calls the primary constructor. -/
def SVMInput.from_params (params : Params) : Except PyErr SVMInput :=
  if (lookupKey params "training_dataset").isSome then do
    let training_dataset ← getItem params "training_dataset"
    let test_dataset ← getItem params "test_dataset"
    let datapoints ← getItem params "datapoints"
    SVMInput.init training_dataset test_dataset datapoints
  else Except.error PyErr.algorithmError

/-! ## Helper lemmas -/

/-- `zip(keys, values)` with the values mapped is a map over the pairs. -/
lemma zip_map_fst_snd (l : List (ℕ × ℕ)) (f : ℕ → ℚ) :
    (l.map Prod.fst).zip ((l.map Prod.snd).map f)
      = l.map (fun p => (p.1, f p.2)) := by
  induction l with
  | nil => rfl
  | cons a t ih => simp only [List.map_cons, List.zip_cons_cons, ih]

/-- `samplingValues` as one map-sort-project pipeline. -/
lemma samplingValues_eq (counts : List (ℕ × ℕ)) :
    samplingValues counts
      = (List.insertionSort keyLe
          (counts.map (fun p =>
            (p.1, (p.2 : ℚ) / (((counts.map Prod.snd).sum : ℕ) : ℚ))))).map
          Prod.snd := by
  show (List.insertionSort keyLe
      ((counts.map Prod.fst).zip
        ((counts.map Prod.snd).map
          (fun v : ℕ => (v : ℚ) / ((counts.map Prod.snd).sum : ℚ))))).map
      Prod.snd = _
  rw [zip_map_fst_snd]

/-- The sampling-mode output has as many entries as the counts dictionary. -/
lemma samplingValues_length (counts : List (ℕ × ℕ)) :
    (samplingValues counts).length = counts.length := by
  rw [samplingValues_eq, List.length_map,
    (List.perm_insertionSort keyLe _).length_eq, List.length_map]

/-- Distributing the division by the total over the summed list. -/
lemma sum_map_div (l : List ℕ) (t : ℚ) :
    (l.map (fun v : ℕ => (v : ℚ) / t)).sum = ((l.sum : ℕ) : ℚ) / t := by
  induction l with
  | nil => simp
  | cons a tl ih =>
      simp only [List.map_cons, List.sum_cons, ih, Nat.cast_add, add_div]

/-- A non-empty list of positive naturals has positive sum. -/
lemma sum_pos_list (l : List ℕ) (hne : l ≠ []) (hpos : ∀ x ∈ l, 0 < x) :
    0 < l.sum := by
  cases l with
  | nil => exact absurd rfl hne
  | cons a t =>
      have ha : 0 < a := hpos a (List.mem_cons_self a t)
      simp only [List.sum_cons]
      omega

/-- `z * conj z` has real part `re² + im²`. -/
lemma exactValues_eq (sv : List (ℚ × ℚ)) :
    exactValues sv = sv.map (fun z => z.1 * z.1 + z.2 * z.2) := by
  unfold exactValues
  rw [List.map_map]
  congr 1
  funext z
  simp [cmul, cconj]

/-- Running `set_probabilities` in exact mode when every step succeeds:
the executed circuit is the bare state-preparation circuit (no measurement
appended) and the squared magnitudes fully overwrite the field. -/
lemma set_probabilities_ok_statevector
    (st : UnivariateVariationalDistribution) (qi : QuantumInstance)
    (qc0 frag : Circuit) (sv : List (ℚ × ℚ))
    (hsv : qi.is_statevector = true)
    (h0 : initFragment st 0 = Except.ok qc0)
    (h1 : st.var_form.construct_circuit st.params 0 = Except.ok frag)
    (hex : qi.execute (qc0 ++ frag) = Except.ok (ExecResult.statevector sv)) :
    st.set_probabilities qi
      = (Except.ok Unit.unit, { st with probabilities := exactValues sv }) := by
  unfold UnivariateVariationalDistribution.set_probabilities
  unfold initFragment at h0
  cases hid : st.initial_distribution with
  | none =>
      rw [hid] at h0
      injection h0 with h0
      subst h0
      simp only [hid, hsv, if_true, bind, Except.bind, pure, Except.pure, h1,
        hex, ExecResult.get_statevector]
  | some idist =>
      rw [hid] at h0
      dsimp only at h0
      simp only [hid, hsv, if_true, bind, Except.bind, pure, Except.pure, h0,
        h1, hex, ExecResult.get_statevector]

/-- Running `set_probabilities` in sampling mode when every step succeeds:
measurement of every qubit is appended before execution and the normalized,
key-sorted counts fully overwrite the field. -/
lemma set_probabilities_ok_counts
    (st : UnivariateVariationalDistribution) (qi : QuantumInstance)
    (qc0 frag : Circuit) (cs : List (ℕ × ℕ))
    (hsv : qi.is_statevector = false)
    (h0 : initFragment st 0 = Except.ok qc0)
    (h1 : st.var_form.construct_circuit st.params 0 = Except.ok frag)
    (hex : qi.execute ((qc0 ++ frag) ++ measureAll st.num_qubits)
      = Except.ok (ExecResult.counts cs)) :
    st.set_probabilities qi
      = (Except.ok Unit.unit, { st with probabilities := samplingValues cs }) := by
  unfold UnivariateVariationalDistribution.set_probabilities
  unfold initFragment at h0
  cases hid : st.initial_distribution with
  | none =>
      rw [hid] at h0
      injection h0 with h0
      subst h0
      simp only [hid, hsv, Bool.false_eq_true, if_false, bind, Except.bind,
        pure, Except.pure, h1, hex, ExecResult.get_counts]
  | some idist =>
      rw [hid] at h0
      dsimp only at h0
      simp only [hid, hsv, Bool.false_eq_true, if_false, bind, Except.bind,
        pure, Except.pure, h0, h1, hex, ExecResult.get_counts]

/-- The only exception Python truthiness can raise in this universe is the
numpy ambiguous-truth `ValueError`. -/
lemma truthy_error (v : PyVal) (e : PyErr) (h : truthy v = Except.error e) :
    e = PyErr.valueError := by
  cases v with
  | none => simp [truthy] at h
  | int n => simp [truthy] at h
  | str s => simp [truthy] at h
  | dict entries => simp [truthy] at h
  | pyList elems => simp [truthy] at h
  | npArray elems =>
      match elems with
      | [] => simp [truthy] at h
      | [x] => simp [truthy] at h
      | _ :: _ :: _ =>
          simp only [truthy] at h
          exact (Except.error.injEq _ _).mp h.symm

/-- `a or b` can only raise the numpy ambiguous-truth `ValueError`. -/
lemma pyOr_error (a b : PyVal) (e : PyErr) (h : pyOr a b = Except.error e) :
    e = PyErr.valueError := by
  unfold pyOr at h
  cases ht : truthy a with
  | error e2 =>
      rw [ht] at h
      simp only [bind, Except.bind] at h
      injection h with h
      exact h ▸ truthy_error a e2 ht
  | ok b2 =>
      rw [ht] at h
      simp only [bind, Except.bind] at h
      cases b2 <;> simp [pure, Except.pure] at h

/-- The primary constructor can only raise `ValueError`. -/
lemma svminput_init_error (t te dp : PyVal) (e : PyErr)
    (h : SVMInput.init t te dp = Except.error e) : e = PyErr.valueError := by
  unfold SVMInput.init at h
  simp only [bind, Except.bind] at h
  cases hte : pyOr te (PyVal.dict []) with
  | error e1 =>
      rw [hte] at h
      injection h with h
      exact h ▸ pyOr_error te (PyVal.dict []) e1 hte
  | ok td =>
      rw [hte] at h
      cases hdp : pyOr dp (PyVal.npArray []) with
      | error e1 =>
          rw [hdp] at h
          injection h with h
          exact h ▸ pyOr_error dp (PyVal.npArray []) e1 hdp
      | ok dv =>
          rw [hdp] at h
          simp [pure, Except.pure] at h

/-- When the default `b` is falsy, a value that `a or b` produced is a fixed
point of `· or b`. -/
lemma pyOr_fixed (a b c : PyVal) (hb : truthy b = Except.ok false)
    (h : pyOr a b = Except.ok c) : pyOr c b = Except.ok c := by
  unfold pyOr at h ⊢
  cases ht : truthy a with
  | error e => rw [ht] at h; simp [bind, Except.bind] at h
  | ok v =>
      rw [ht] at h
      simp only [bind, Except.bind] at h
      cases v with
      | true =>
          simp only [if_pos, pure, Except.pure, Except.ok.injEq] at h
          subst h
          rw [ht]
          simp [bind, Except.bind, pure, Except.pure]
      | false =>
          simp only [Bool.false_eq_true, if_false, pure, Except.pure,
            Except.ok.injEq] at h
          subst h
          rw [hb]
          simp [bind, Except.bind, pure, Except.pure]

/-! ## Theorems for the claims -/

/-- C7: the primary `SVMInput` constructor stores `training_dataset` as
given, and every falsy `test_dataset` / `datapoints` argument (including the
omitted default `None`) is replaced by the empty dict `{}` and the empty
numpy array respectively. -/
theorem svminput_init_defaults (t te dp : PyVal)
    (hte : truthy te = Except.ok false) (hdp : truthy dp = Except.ok false) :
    SVMInput.init t te dp
      = Except.ok ⟨t, PyVal.dict [], PyVal.npArray []⟩ := by
  unfold SVMInput.init pyOr
  rw [hte, hdp]
  simp [bind, Except.bind, pure, Except.pure]

/-- C7 witness: `SVMInput(training_dataset={"x": 1})` yields
`test_dataset == {}` and `datapoints` the empty array. -/
theorem svminput_init_defaults_witness :
    SVMInput.init (PyVal.dict [("x", 1)]) PyVal.none PyVal.none
      = Except.ok ⟨PyVal.dict [("x", 1)], PyVal.dict [], PyVal.npArray []⟩ :=
  svminput_init_defaults (PyVal.dict [("x", 1)]) PyVal.none PyVal.none rfl rfl

/-- C10: because defaulting is written `datapoints or np.asarray([])`, the
primary constructor raises `ValueError` (ambiguous array truthiness)
whenever `datapoints` is a numpy array with two or more elements, for every
`training_dataset` and every `test_dataset`. -/
theorem svminput_init_multielement_array_raises (t te : PyVal) (l : List ℚ)
    (hl : 2 ≤ l.length) :
    SVMInput.init t te (PyVal.npArray l) = Except.error PyErr.valueError := by
  match l, hl with
  | x :: y :: rest, _ =>
    unfold SVMInput.init
    simp only [bind, Except.bind]
    cases hte : pyOr te (PyVal.dict []) with
    | error e =>
        rw [pyOr_error te (PyVal.dict []) e hte]
    | ok td =>
        unfold pyOr truthy
        simp [bind, Except.bind]

/-- C10 witness: `SVMInput({}, None, np.asarray([1, 2]))` raises. -/
theorem svminput_init_multielement_array_raises_witness :
    SVMInput.init (PyVal.dict []) PyVal.none (PyVal.npArray [1, 2])
      = Except.error PyErr.valueError :=
  svminput_init_multielement_array_raises (PyVal.dict []) PyVal.none [1, 2]
    (by norm_num)

/-- C6: `from_params` raises `AlgorithmError` if and only if the key
`"training_dataset"` is absent from the input mapping; with the key present
any failure is a different exception (`KeyError` or `ValueError`). -/
theorem from_params_algorithm_error_iff (params : Params) :
    SVMInput.from_params params = Except.error PyErr.algorithmError
      ↔ lookupKey params "training_dataset" = Option.none := by
  unfold SVMInput.from_params
  cases hk : lookupKey params "training_dataset" with
  | none => simp [hk]
  | some t =>
      simp only [hk, Option.isSome_some, if_true]
      constructor
      · intro h
        exfalso
        simp only [bind, Except.bind, getItem, hk] at h
        cases h1 : lookupKey params "test_dataset" with
        | none => rw [h1] at h; exact PyErr.noConfusion (Except.error.inj h)
        | some te =>
            rw [h1] at h
            cases h2 : lookupKey params "datapoints" with
            | none => rw [h2] at h; exact PyErr.noConfusion (Except.error.inj h)
            | some dp =>
                rw [h2] at h
                exact PyErr.noConfusion (svminput_init_error t te dp _ h)
      · intro h
        exact Option.noConfusion h

/-- C6 witness: `from_params({"test_dataset": {}, "datapoints": []})` raises
`AlgorithmError` rather than defaulting. -/
theorem from_params_algorithm_error_iff_witness :
    SVMInput.from_params
        [("test_dataset", PyVal.dict []), ("datapoints", PyVal.pyList [])]
      = Except.error PyErr.algorithmError :=
  (from_params_algorithm_error_iff
    [("test_dataset", PyVal.dict []), ("datapoints", PyVal.pyList [])]).mpr rfl

/-- C5: for every instance the primary constructor produced,
`from_params(instance.to_params())` succeeds and returns an instance whose
three fields equal the original's. -/
theorem from_params_to_params_roundtrip (t te dp : PyVal) (inst : SVMInput)
    (h : SVMInput.init t te dp = Except.ok inst) :
    SVMInput.from_params inst.to_params = Except.ok inst := by
  unfold SVMInput.init at h
  simp only [bind, Except.bind] at h
  cases hte : pyOr te (PyVal.dict []) with
  | error e => rw [hte] at h; exact Except.noConfusion h
  | ok td =>
      rw [hte] at h
      cases hdp : pyOr dp (PyVal.npArray []) with
      | error e => rw [hdp] at h; exact Except.noConfusion h
      | ok dv =>
          rw [hdp] at h
          simp only [pure, Except.pure, Except.ok.injEq] at h
          subst h
          have hfp :
              SVMInput.from_params
                  (SVMInput.to_params ⟨t, td, dv⟩)
                = SVMInput.init t td dv := rfl
          rw [hfp]
          unfold SVMInput.init
          rw [pyOr_fixed te (PyVal.dict []) td rfl hte,
              pyOr_fixed dp (PyVal.npArray []) dv rfl hdp]
          simp [bind, Except.bind, pure, Except.pure]

/-- C5 witness: round-trip at a concrete instance built by the primary
constructor from `training_dataset={"x": 1}`. -/
theorem from_params_to_params_roundtrip_witness :
    SVMInput.from_params
        (SVMInput.to_params
          ⟨PyVal.dict [("x", 1)], PyVal.dict [], PyVal.npArray []⟩)
      = Except.ok ⟨PyVal.dict [("x", 1)], PyVal.dict [], PyVal.npArray []⟩ :=
  from_params_to_params_roundtrip (PyVal.dict [("x", 1)]) PyVal.none PyVal.none
    ⟨PyVal.dict [("x", 1)], PyVal.dict [], PyVal.npArray []⟩ rfl

/-- C8 counterexample: the claim says the values stored for `test_dataset`
and `datapoints` are exactly the mapping's values even when falsy
(e.g. `None`); but `from_params` hands them to the primary constructor,
whose falsy-defaulting replaces `None` by `{}` and the empty array. -/
theorem from_params_passthrough_cex :
    SVMInput.from_params
        [("training_dataset", PyVal.dict [("x", 1)]),
         ("test_dataset", PyVal.none), ("datapoints", PyVal.none)]
      = Except.ok ⟨PyVal.dict [("x", 1)], PyVal.dict [], PyVal.npArray []⟩
    ∧ PyVal.dict [] ≠ PyVal.none ∧ PyVal.npArray [] ≠ PyVal.none :=
  ⟨rfl, fun h => PyVal.noConfusion h, fun h => PyVal.noConfusion h⟩

/-- C8 amended: `from_params` itself substitutes no defaults — a missing
`"test_dataset"` key raises `KeyError` rather than being defaulted — but the
values it reads pass through the primary constructor, whose falsy-defaulting
applies; the stored fields equal the mapping's values whenever those values
are truthy. -/
theorem from_params_reads_directly (params : Params) (t te dp : PyVal) :
    ((lookupKey params "training_dataset" = Option.some t ∧
      lookupKey params "test_dataset" = Option.some te ∧
      lookupKey params "datapoints" = Option.some dp ∧
      truthy te = Except.ok true ∧ truthy dp = Except.ok true) →
      SVMInput.from_params params = Except.ok ⟨t, te, dp⟩)
    ∧ ((lookupKey params "training_dataset" = Option.some t ∧
        lookupKey params "test_dataset" = Option.none) →
      SVMInput.from_params params = Except.error PyErr.keyError) := by
  constructor
  · rintro ⟨h0, h1, h2, hte, hdp⟩
    unfold SVMInput.from_params
    simp only [getItem, h0, h1, h2, Option.isSome_some, if_true, bind,
      Except.bind]
    unfold SVMInput.init pyOr
    rw [hte, hdp]
    simp [bind, Except.bind, pure, Except.pure]
  · rintro ⟨h0, h1⟩
    unfold SVMInput.from_params
    simp only [getItem, h0, h1, Option.isSome_some, if_true, bind,
      Except.bind]

/-- C8 amended witness: truthy values pass through unchanged at a concrete
mapping. -/
theorem from_params_reads_directly_witness :
    SVMInput.from_params
        [("training_dataset", PyVal.none),
         ("test_dataset", PyVal.dict [("a", 2)]),
         ("datapoints", PyVal.pyList [[1, 2]])]
      = Except.ok ⟨PyVal.none, PyVal.dict [("a", 2)], PyVal.pyList [[1, 2]]⟩ :=
  (from_params_reads_directly
      [("training_dataset", PyVal.none),
       ("test_dataset", PyVal.dict [("a", 2)]),
       ("datapoints", PyVal.pyList [[1, 2]])]
      PyVal.none (PyVal.dict [("a", 2)]) (PyVal.pyList [[1, 2]])).1
    ⟨rfl, rfl, rfl, rfl, rfl⟩

/-- C2: in sampling mode, for every non-empty counts mapping with positive
occurrence counts, `set_probabilities` stores the counts divided by their
total, reordered into ascending bit-string-key order (the stored vector is a
permutation of the normalized counts); consequently it sums to 1 and is the
same for any reordering of the input mapping's entries. -/
theorem samplingValues_normalized (counts : List (ℕ × ℕ))
    (hne : counts ≠ []) (hpos : ∀ p ∈ counts, 0 < p.2) :
    (∀ (st : UnivariateVariationalDistribution) (qi : QuantumInstance)
        (qc0 frag : Circuit),
      qi.is_statevector = false →
      initFragment st 0 = Except.ok qc0 →
      st.var_form.construct_circuit st.params 0 = Except.ok frag →
      qi.execute ((qc0 ++ frag) ++ measureAll st.num_qubits)
        = Except.ok (ExecResult.counts counts) →
      st.set_probabilities qi
        = (Except.ok Unit.unit,
           { st with probabilities := samplingValues counts }))
    ∧ (samplingValues counts).Perm
        (counts.map (fun p =>
          (p.2 : ℚ) / (((counts.map Prod.snd).sum : ℕ) : ℚ)))
    ∧ (samplingValues counts).sum = 1
    ∧ ∀ counts' : List (ℕ × ℕ), counts'.Perm counts →
        samplingValues counts' = samplingValues counts := by
  refine ⟨fun st qi qc0 frag hsv h0 h1 hex =>
    set_probabilities_ok_counts st qi qc0 frag counts hsv h0 h1 hex, ?_⟩
  have hperm1 :
      (samplingValues counts).Perm
        (counts.map (fun p =>
          (p.2 : ℚ) / (((counts.map Prod.snd).sum : ℕ) : ℚ))) := by
    rw [samplingValues_eq]
    have h := (List.perm_insertionSort keyLe
      (counts.map (fun p =>
        (p.1, (p.2 : ℚ) / (((counts.map Prod.snd).sum : ℕ) : ℚ))))).map Prod.snd
    rw [List.map_map] at h
    exact h
  refine ⟨hperm1, ?_, ?_⟩
  · rw [hperm1.sum_eq]
    have hmm :
        counts.map (fun p =>
            (p.2 : ℚ) / (((counts.map Prod.snd).sum : ℕ) : ℚ))
          = (counts.map Prod.snd).map
              (fun v : ℕ =>
                (v : ℚ) / (((counts.map Prod.snd).sum : ℕ) : ℚ)) := by
      rw [List.map_map]
      rfl
    rw [hmm, sum_map_div]
    have hpos' : 0 < (counts.map Prod.snd).sum := by
      apply sum_pos_list
      · intro h
        exact hne (List.map_eq_nil_iff.mp h)
      · intro x hx
        obtain ⟨p, hp, rfl⟩ := List.mem_map.mp hx
        exact hpos p hp
    have hT : (((counts.map Prod.snd).sum : ℕ) : ℚ) ≠ 0 := by
      exact_mod_cast Nat.pos_iff_ne_zero.mp hpos'
    exact div_self hT
  · intro counts' hp
    have hsum : (counts'.map Prod.snd).sum = (counts.map Prod.snd).sum :=
      (hp.map Prod.snd).sum_eq
    rw [samplingValues_eq counts', samplingValues_eq counts]
    simp only [hsum]
    have hsorteq :
        List.insertionSort keyLe
            (counts'.map (fun p =>
              (p.1, (p.2 : ℚ) / (((counts.map Prod.snd).sum : ℕ) : ℚ))))
          = List.insertionSort keyLe
              (counts.map (fun p =>
                (p.1, (p.2 : ℚ) / (((counts.map Prod.snd).sum : ℕ) : ℚ)))) :=
      List.eq_of_perm_of_sorted
        ((List.perm_insertionSort keyLe _).trans
          ((hp.map _).trans (List.perm_insertionSort keyLe _).symm))
        (List.sorted_insertionSort keyLe _)
        (List.sorted_insertionSort keyLe _)
    rw [hsorteq]

/-- C2 witness: a concrete three-outcome counts mapping and a reordering of
it. -/
theorem samplingValues_normalized_witness :
    (samplingValues [(2, 1), (0, 1), (3, 2)]).sum = 1
    ∧ samplingValues [(0, 1), (3, 2), (2, 1)]
        = samplingValues [(2, 1), (0, 1), (3, 2)] :=
  ⟨(samplingValues_normalized [(2, 1), (0, 1), (3, 2)] (by decide)
      (by decide)).2.2.1,
   (samplingValues_normalized [(2, 1), (0, 1), (3, 2)] (by decide)
      (by decide)).2.2.2 [(0, 1), (3, 2), (2, 1)] (by decide)⟩

/-- C3: in exact mode, for every state the collaborators succeed on, the
executed circuit is the bare state-preparation circuit (no measurement is
appended), and the squared magnitudes of the returned state vector become
the probabilities in basis order; for a unit-norm state vector of length
`2^n` the stored vector has length `2^n`, entries `≥ 0`, and sum 1. -/
theorem set_probabilities_statevector_correct
    (st : UnivariateVariationalDistribution) (qi : QuantumInstance)
    (qc0 frag : Circuit) (sv : List (ℚ × ℚ))
    (hn : 1 ≤ st.num_qubits)
    (hsv : qi.is_statevector = true)
    (h0 : initFragment st 0 = Except.ok qc0)
    (h1 : st.var_form.construct_circuit st.params 0 = Except.ok frag)
    (hex : qi.execute (qc0 ++ frag) = Except.ok (ExecResult.statevector sv))
    (hlen : sv.length = 2 ^ st.num_qubits)
    (hnorm : (sv.map (fun z => z.1 * z.1 + z.2 * z.2)).sum = 1) :
    st.set_probabilities qi
      = (Except.ok Unit.unit, { st with probabilities := exactValues sv })
    ∧ (exactValues sv).length = 2 ^ st.num_qubits
    ∧ (∀ x ∈ exactValues sv, 0 ≤ x)
    ∧ (exactValues sv).sum = 1 := by
  refine ⟨set_probabilities_ok_statevector st qi qc0 frag sv hsv h0 h1 hex,
    ?_, ?_, ?_⟩
  · rw [exactValues_eq, List.length_map, hlen]
  · intro x hx
    rw [exactValues_eq] at hx
    obtain ⟨z, _, rfl⟩ := List.mem_map.mp hx
    nlinarith [mul_self_nonneg z.1, mul_self_nonneg z.2]
  · rw [exactValues_eq, hnorm]

/-- C3 witness: the basis state `|0⟩` on one qubit. -/
theorem set_probabilities_statevector_correct_witness :
    (UnivariateVariationalDistribution.set_probabilities
        ⟨1, vfEmpty, [], Option.none, [0, 0]⟩
        ⟨true, fun _ =>
          Except.ok (ExecResult.statevector [(1, 0), (0, 0)])⟩).2.probabilities.sum
      = 1 := by
  have h := set_probabilities_statevector_correct
    ⟨1, vfEmpty, [], Option.none, [0, 0]⟩
    ⟨true, fun _ => Except.ok (ExecResult.statevector [(1, 0), (0, 0)])⟩
    [] [] [(1, 0), (0, 0)]
    (by norm_num) rfl rfl rfl rfl (by norm_num) (by norm_num)
  rw [h.1]
  exact h.2.2.2

/-- C9: any error raised by the initial-distribution circuit construction,
the variational-form circuit construction, or the execution context
propagates out of `set_probabilities` unmodified, and the object state —
in particular the `probabilities` field — comes back unchanged. -/
theorem set_probabilities_error_propagation
    (st : UnivariateVariationalDistribution) (qi : QuantumInstance)
    (e : Err) :
    (initFragment st 0 = Except.error e →
        st.set_probabilities qi = (Except.error e, st))
    ∧ (∀ qc0, initFragment st 0 = Except.ok qc0 →
        st.var_form.construct_circuit st.params 0 = Except.error e →
        st.set_probabilities qi = (Except.error e, st))
    ∧ (∀ qc0 frag, initFragment st 0 = Except.ok qc0 →
        st.var_form.construct_circuit st.params 0 = Except.ok frag →
        qi.execute (executedCircuit qi st (qc0 ++ frag)) = Except.error e →
        st.set_probabilities qi = (Except.error e, st)) := by
  refine ⟨?_, ?_, ?_⟩
  · intro h0
    unfold UnivariateVariationalDistribution.set_probabilities
    unfold initFragment at h0
    cases hid : st.initial_distribution with
    | none => rw [hid] at h0; exact Except.noConfusion h0
    | some idist =>
        rw [hid] at h0
        dsimp only at h0
        simp only [hid, bind, Except.bind, h0]
  · intro qc0 h0 h1
    unfold UnivariateVariationalDistribution.set_probabilities
    unfold initFragment at h0
    cases hid : st.initial_distribution with
    | none =>
        rw [hid] at h0
        injection h0 with h0
        subst h0
        simp only [hid, bind, Except.bind, pure, Except.pure, h1]
    | some idist =>
        rw [hid] at h0
        dsimp only at h0
        simp only [hid, bind, Except.bind, pure, Except.pure, h0, h1]
  · intro qc0 frag h0 h1 hex
    unfold UnivariateVariationalDistribution.set_probabilities
    unfold initFragment at h0
    unfold executedCircuit at hex
    cases hid : st.initial_distribution with
    | none =>
        rw [hid] at h0
        injection h0 with h0
        subst h0
        cases hsv : qi.is_statevector with
        | true =>
            rw [hsv, if_pos rfl] at hex
            simp only [hid, hsv, if_true, bind, Except.bind, pure,
              Except.pure, h1, hex]
        | false =>
            rw [hsv, if_neg Bool.false_ne_true] at hex
            simp only [hid, hsv, Bool.false_eq_true, if_false, bind,
              Except.bind, pure, Except.pure, h1, hex]
    | some idist =>
        rw [hid] at h0
        dsimp only at h0
        cases hsv : qi.is_statevector with
        | true =>
            rw [hsv, if_pos rfl] at hex
            simp only [hid, hsv, if_true, bind, Except.bind, pure,
              Except.pure, h0, h1, hex]
        | false =>
            rw [hsv, if_neg Bool.false_ne_true] at hex
            simp only [hid, hsv, Bool.false_eq_true, if_false, bind,
              Except.bind, pure, Except.pure, h0, h1, hex]

/-- C9 witness: a failing execution context propagates its error and leaves
the state unchanged. -/
theorem set_probabilities_error_propagation_witness :
    UnivariateVariationalDistribution.set_probabilities
        ⟨1, vfEmpty, [], Option.none, [0, 0]⟩
        ⟨false, fun _ => Except.error "boom"⟩
      = (Except.error "boom", ⟨1, vfEmpty, [], Option.none, [0, 0]⟩) :=
  (set_probabilities_error_propagation
      ⟨1, vfEmpty, [], Option.none, [0, 0]⟩
      ⟨false, fun _ => Except.error "boom"⟩ "boom").2.2 [] [] rfl rfl rfl

/-- C4 counterexample: the claim says the variational form is parameterized
by the override `params` argument when one is given; the source (line 82)
passes `self.params` regardless, so with current parameters `[0]` and
override `[1]` the appended fragment carries `[0]`, not `[1]`. -/
theorem build_override_ignored_cex :
    UnivariateVariationalDistribution.build
        ⟨1, vfRecord, [0], Option.none, [0, 0]⟩
        [] 0 Option.none (Option.some [1])
      = Except.ok [Op.varGate [0] 0]
    ∧ Op.varGate [0] 0 ≠ Op.varGate [1] 0 := by
  refine ⟨rfl, fun h => ?_⟩
  have h01 : (0 : ℚ) = 1 := by
    have := (Op.varGate.injEq [0] 0 [1] 0).mp h
    exact List.head_eq_of_cons_eq this.1
  norm_num at h01

/-- C4 amended: `build` only appends to the given circuit — the
initial-preparation fragment first when the collaborator is present, the
variational-form fragment strictly after — and the variational form is
always parameterized by the object's current `params`; the override
argument is ignored. -/
theorem build_appends (st : UnivariateVariationalDistribution)
    (qc : Circuit) (q : ℕ) (anc : Option ℕ) (ov : Option (List ℚ))
    (fragI fragV : Circuit)
    (hI : initFragment st q = Except.ok fragI)
    (hV : st.var_form.construct_circuit st.params q = Except.ok fragV) :
    st.build qc q anc ov = Except.ok ((qc ++ fragI) ++ fragV) := by
  unfold UnivariateVariationalDistribution.build
  unfold initFragment at hI
  cases hid : st.initial_distribution with
  | none =>
      rw [hid] at hI
      injection hI with hI
      subst hI
      simp [bind, Except.bind, pure, Except.pure, hid, hV]
  | some idist =>
      rw [hid] at hI
      dsimp only at hI
      simp [bind, Except.bind, pure, Except.pure, hid, hI, hV]

/-- C4 amended witness: with an initial-preparation collaborator present,
its fragment lands strictly before the variational-form fragment, and the
override argument `[1]` is ignored in favor of the current `[0]`. -/
theorem build_appends_witness :
    UnivariateVariationalDistribution.build
        ⟨1, vfRecord, [0], Option.some ⟨fun q => Except.ok [Op.initGate q]⟩,
          [0, 0]⟩
        [] 0 Option.none (Option.some [1])
      = Except.ok (([] ++ [Op.initGate 0]) ++ [Op.varGate [0] 0]) :=
  build_appends
    ⟨1, vfRecord, [0], Option.some ⟨fun q => Except.ok [Op.initGate q]⟩,
      [0, 0]⟩
    [] 0 Option.none (Option.some [1]) [Op.initGate 0] [Op.varGate [0] 0]
    rfl rfl

/-- C1 counterexample: the claim says `probabilities` has length
`2**num_qubits` for every counts mapping the execution context may return;
with one qubit and a counts mapping holding the single observed outcome
`'0' ↦ 5`, the refreshed vector is `[1]`, of length 1 ≠ 2. -/
theorem probabilities_length_cex :
    (UnivariateVariationalDistribution.set_probabilities
        ⟨1, vfEmpty, [], Option.none, [0, 0]⟩
        ⟨false, fun _ =>
          Except.ok (ExecResult.counts [(0, 5)])⟩).2.probabilities.length
      ≠ 2 ^ (1 : ℕ) := by
  intro h
  rw [set_probabilities_ok_counts
    ⟨1, vfEmpty, [], Option.none, [0, 0]⟩
    ⟨false, fun _ => Except.ok (ExecResult.counts [(0, 5)])⟩
    [] [] [(0, 5)] rfl rfl rfl rfl] at h
  have h2 : (samplingValues [(0, 5)]).length = 2 ^ (1 : ℕ) := h
  rw [samplingValues_length] at h2
  norm_num at h2

/-- C1 amended: `len(probabilities) == 2**num_qubits` holds after
construction (all zeros) and after an exact-mode refresh whose state vector
has length `2^num_qubits`; after a sampling-mode refresh the length instead
equals the number of distinct keys in the counts mapping, which is
`2^num_qubits` only when every basis state was observed. -/
theorem probabilities_length_invariant (n : ℕ) (vf : VarForm) (ps : List ℚ)
    (idist : Option InitialDistribution)
    (st : UnivariateVariationalDistribution) (qi : QuantumInstance)
    (qc0 frag : Circuit) (sv : List (ℚ × ℚ)) (cs : List (ℕ × ℕ)) :
    ((UnivariateVariationalDistribution.init n vf ps
          idist).probabilities.length = 2 ^ n
      ∧ ∀ x ∈ (UnivariateVariationalDistribution.init n vf ps
          idist).probabilities, x = 0)
    ∧ (qi.is_statevector = true →
        initFragment st 0 = Except.ok qc0 →
        st.var_form.construct_circuit st.params 0 = Except.ok frag →
        qi.execute (qc0 ++ frag) = Except.ok (ExecResult.statevector sv) →
        sv.length = 2 ^ st.num_qubits →
        (st.set_probabilities qi).2.probabilities.length = 2 ^ st.num_qubits)
    ∧ (qi.is_statevector = false →
        initFragment st 0 = Except.ok qc0 →
        st.var_form.construct_circuit st.params 0 = Except.ok frag →
        qi.execute ((qc0 ++ frag) ++ measureAll st.num_qubits)
          = Except.ok (ExecResult.counts cs) →
        (st.set_probabilities qi).2.probabilities.length = cs.length) := by
  refine ⟨⟨?_, ?_⟩, ?_, ?_⟩
  · simp [UnivariateVariationalDistribution.init]
  · intro x hx
    simp only [UnivariateVariationalDistribution.init] at hx
    exact List.eq_of_mem_replicate hx
  · intro hsv h0 h1 hex hlen
    rw [set_probabilities_ok_statevector st qi qc0 frag sv hsv h0 h1 hex]
    show (exactValues sv).length = 2 ^ st.num_qubits
    rw [exactValues_eq, List.length_map, hlen]
  · intro hsv h0 h1 hex
    rw [set_probabilities_ok_counts st qi qc0 frag cs hsv h0 h1 hex]
    show (samplingValues cs).length = cs.length
    exact samplingValues_length cs

/-- C1 amended witness: one qubit in sampling mode with both outcomes
observed — the refreshed vector length equals the number of keys, here
`2 = 2^1`. -/
theorem probabilities_length_invariant_witness :
    ((UnivariateVariationalDistribution.set_probabilities
        ⟨1, vfEmpty, [], Option.none, [0, 0]⟩
        ⟨false, fun _ =>
          Except.ok (ExecResult.counts [(0, 3), (1, 1)])⟩).2.probabilities.length
      = 2) :=
  (probabilities_length_invariant 1 vfEmpty [] Option.none
      ⟨1, vfEmpty, [], Option.none, [0, 0]⟩
      ⟨false, fun _ => Except.ok (ExecResult.counts [(0, 3), (1, 1)])⟩
      [] [] [] [(0, 3), (1, 1)]).2.2 rfl rfl rfl rfl

end QiskitAqua
